import Mathlib

/-!
Shallow embedding of the quadtree Node subsystem of the openglobus planet
renderer (source file `src/og/quadTree/Node.js`).

Geographic and mercator coordinates are modelled as exact rationals: all
extent subdivisions performed by the code are exact halvings, so rational
arithmetic reproduces the IEEE-double comparisons the code relies on
(the specification itself notes that equality of subdivision results is
exact).  Tessellation counts and tile indices are natural numbers; values
produced by `Math.ceil` are integers; JavaScript `Float32Array`s are
modelled as lists of rationals with explicit zero fill.
-/

attribute [local semireducible] Rat.mul Rat.add Rat.inv Rat.sub

/-- Quadrant (child-slot) identifiers NW, NE, SW, SE.  Modelled from the spec:
the child enum `{NW,NE,SW,SE}` of the quadtree constants module, which is not
among the sources. -/
inductive QPart where
  | nw
  | ne
  | sw
  | se
deriving DecidableEq

/-- Side identifiers N, E, S, W.  Modelled from the spec: the side enum
`{N,E,S,W}` of the quadtree constants module, which is not among the
sources. -/
inductive Side where
  | n
  | e
  | s
  | w
deriving DecidableEq

/-- Modelled from the spec: `OPSIDE[side]` is the opposite side (§6 of the
spec; the constants module is not among the sources). -/
def OPSIDE : Side → Side
  | .n => .s
  | .e => .w
  | .s => .n
  | .w => .e

/-- Modelled from the spec: `NEIGHBOUR[side][partId]` is the sibling's partId
if this part's neighbour across `side` lies within the same parent, else −1
(here `none`).  Geometrically, NW and NE touch the parent's north edge, NE
and SE its east edge, and so on. -/
def NEIGHBOUR : Side → QPart → Option QPart
  | .n, .nw => none
  | .n, .ne => none
  | .n, .sw => some .nw
  | .n, .se => some .ne
  | .e, .nw => some .ne
  | .e, .ne => none
  | .e, .sw => some .se
  | .e, .se => none
  | .s, .nw => some .sw
  | .s, .ne => some .se
  | .s, .sw => none
  | .s, .se => none
  | .w, .nw => none
  | .w, .ne => some .nw
  | .w, .sw => none
  | .w, .se => some .sw

/-- Modelled from the spec: `OPPART[side][partId]` is the child index to
descend into when mirroring a recorded path across `side`: mirroring across
the north or south edge flips NW↔SW and NE↔SE, mirroring across the east or
west edge flips NW↔NE and SW↔SE. -/
def OPPART : Side → QPart → QPart
  | .n, .nw => .sw
  | .n, .ne => .se
  | .n, .sw => .nw
  | .n, .se => .ne
  | .e, .nw => .ne
  | .e, .ne => .nw
  | .e, .sw => .se
  | .e, .se => .sw
  | .s, .nw => .sw
  | .s, .ne => .se
  | .s, .sw => .nw
  | .s, .se => .ne
  | .w, .nw => .ne
  | .w, .ne => .nw
  | .w, .sw => .se
  | .w, .se => .sw

/-- A longitude/latitude pair (`LonLat.js`, used through its `lon`/`lat`
fields only). -/
structure LonLat where
  lon : ℚ
  lat : ℚ
deriving DecidableEq

/-- An axis-aligned rectangle given by its south-west and north-east corners
(`Extent.js`, used through its corner fields, width/height and inside-test). -/
structure Extent where
  southWest : LonLat
  northEast : LonLat
deriving DecidableEq

/-- Modelled from the spec: the extent inside-test (`Extent` "provides width,
height, inside-test"; `Extent.js` is not among the sources): a point is
inside when it lies between the south-west and north-east corners. -/
def Extent.isInside (e : Extent) (p : LonLat) : Prop :=
  e.southWest.lon ≤ p.lon ∧ p.lon ≤ e.northEast.lon ∧
    e.southWest.lat ≤ p.lat ∧ p.lat ≤ e.northEast.lat

instance (e : Extent) (p : LonLat) : Decidable (e.isInside p) := by
  unfold Extent.isInside
  infer_instance

/-- Modelled from the spec: `POLE = 180°` (§6; `mercator.js` is not among the
sources).  `getCommonSide` only compares against it, so its exact value does
not influence the proved properties. -/
def POLE : ℚ := 180

/-- Modelled from the spec: `MAX_LAT ≈ 85.0511287798°`, the mercator cutoff
latitude (§6; `mercator.js` is not among the sources). -/
def MAX_LAT : ℚ := mkRat 850511287798 10000000000

/-- `Node.prototype.getCommonSide`: decides whether the extent `a` of the
scanning node shares an edge with the extent `b` of an already rendered node,
returning the side on `a` (`-1` is modelled as `none`).  The duplicated third
polar-longitude branch of the source is kept as written. -/
def getCommonSide (tileZoom : ℕ) (a b : Extent) : Option Side :=
  if (a.northEast.lat ≤ b.northEast.lat ∧ a.southWest.lat ≥ b.southWest.lat) ∨
      (a.northEast.lat ≥ b.northEast.lat ∧ a.southWest.lat ≤ b.southWest.lat) then
    if a.northEast.lon = b.southWest.lon then some .e
    else if a.southWest.lon = b.northEast.lon then some .w
    else if 0 < tileZoom then
      if a.northEast.lon = POLE ∧ b.southWest.lon = -POLE then some .e
      else if a.southWest.lon = -POLE ∧ b.northEast.lon = POLE then some .e
      else if a.southWest.lon = -POLE ∧ b.northEast.lon = POLE then some .w
      else none
    else none
  else if (a.southWest.lon ≥ b.southWest.lon ∧ a.northEast.lon ≤ b.northEast.lon) ∨
      (a.southWest.lon ≤ b.southWest.lon ∧ a.northEast.lon ≥ b.northEast.lon) then
    if a.northEast.lat = b.southWest.lat then some .n
    else if a.southWest.lat = b.northEast.lat then some .s
    else if a.northEast.lat = POLE ∧ b.southWest.lat = MAX_LAT then some .n
    else if a.southWest.lat = -POLE ∧ b.northEast.lat = -MAX_LAT then some .s
    else none
  else none

/-- Pointwise update of a per-side array, used to model in-place writes into
the JavaScript arrays indexed by side. -/
def updS {α : Type} (f : Side → α) (sd : Side) (v : α) : Side → α :=
  fun t => if t = sd then v else f t

/-- `Math.pow(2, e)` for an integer exponent, as used in the seam-ratio
computation of `addToRender`. -/
def pow2 (e : ℤ) : ℚ :=
  if 0 ≤ e then (2 : ℚ) ^ e.toNat else ((2 : ℚ) ^ (-e).toNat)⁻¹

/-- `Math.ceil` on an exact rational, producing an integer. -/
def jsCeil (q : ℚ) : ℤ := Int.ceil q

/-- The per-node state touched by `addToRender`: the owned segment's tile
zoom, extent and grid size, together with the node's neighbour slots (stored
as node identifiers), `hasNeighbor` flags and per-side tessellation sizes. -/
structure RNode where
  id : ℕ
  tileZoom : ℕ
  extent : Extent
  gridSize : ℕ
  neighbors : Side → Option ℕ
  hasNeighbor : Side → Bool
  sideSize : Side → ℤ

/-- One iteration of the scan inside `Node.prototype.addToRender`: the
registering node `node` is matched against one already rendered node `ni`;
on a common side the symmetric neighbour links are installed and, unless
both `hasNeighbor` flags are already set, the per-side sizes are negotiated
from the seam ratio `ld`.  Returns the updated `(node, ni)` pair. -/
def addNodeStep (node ni : RNode) : RNode × RNode :=
  match getCommonSide node.tileZoom node.extent ni.extent with
  | none => (node, ni)
  | some cs =>
    let opcs := OPSIDE cs
    let node1 := { node with neighbors := updS node.neighbors cs (some ni.id) }
    let ni1 := { ni with neighbors := updS ni.neighbors opcs (some node.id) }
    if node1.hasNeighbor cs && ni1.hasNeighbor opcs then
      (node1, ni1)
    else
      let ld : ℚ :=
        (node.gridSize : ℚ) / ((ni.gridSize : ℚ) * pow2 ((ni.tileZoom : ℤ) - (node.tileZoom : ℤ)))
      let node2 := { node1 with hasNeighbor := updS node1.hasNeighbor cs true }
      let ni2 := { ni1 with hasNeighbor := updS ni1.hasNeighbor opcs true }
      if 1 < ld then
        ({ node2 with sideSize := updS node2.sideSize cs (jsCeil ((node.gridSize : ℚ) / ld)) },
         { ni2 with sideSize := updS ni2.sideSize opcs (ni.gridSize : ℤ) })
      else if ld < 1 then
        ({ node2 with sideSize := updS node2.sideSize cs (node.gridSize : ℤ) },
         { ni2 with sideSize := updS ni2.sideSize opcs (jsCeil ((ni.gridSize : ℚ) * ld)) })
      else
        ({ node2 with sideSize := updS node2.sideSize cs (node.gridSize : ℤ) },
         { ni2 with sideSize := updS ni2.sideSize opcs (ni.gridSize : ℤ) })

/-- The backwards scan of `addToRender` over the rendered list: the list
argument is the rendered list *reversed* (newest first), matching the
`for (var i = nodes.length - 1; i >= 0; i--)` loop; the registering node is
threaded through while each visited node is updated once.  Returns the final
registering node and the updated (still reversed) list. -/
def scanRev (node : RNode) : List RNode → RNode × List RNode
  | [] => (node, [])
  | ni :: rest =>
    let p := addNodeStep node ni
    let q := scanRev p.1 rest
    (q.1, p.2 :: q.2)

/-- `Node.prototype.addToRender`: scan the planet's rendered list from the
tail backwards, link and negotiate against every node sharing a side, then
append the registering node to the list. -/
def addToRender (node : RNode) (nodes : List RNode) : List RNode :=
  let q := scanRev node nodes.reverse
  q.2.reverse ++ [q.1]

/-- Modelled from the spec: the numeric values NW = 0, NE = 1, SW = 2, SE = 3
of the child enum (§3: children indexed by `{NW=0,NE=1,SW=2,SE=3}`). -/
def QPart.val : QPart → ℕ
  | .nw => 0
  | .ne => 1
  | .sw => 2
  | .se => 3

/-- A child produced by `createChildrenNodes`: its child-slot, the identifier
`partId + id` with `id = parent.nodeId * 4 + 1`, its tile zoom, and its
extent. -/
structure ChildNode where
  partId : QPart
  nodeId : ℕ
  tileZoom : ℕ
  extent : Extent
deriving DecidableEq

/-- `Node.prototype.createChildrenNodes`: splits the parent extent at the
half-width/half-height point and creates the NW, NE, SW, SE children with
`tileZoom + 1` and identifiers derived from `nodeId * 4 + 1`. -/
def createChildrenNodes (nodeId : ℕ) (tileZoom : ℕ) (ext : Extent) : QPart → ChildNode :=
  let sw := ext.southWest
  let ne := ext.northEast
  let size_x := (ne.lon - sw.lon) * ((1 : ℚ) / 2)
  let size_y := (ne.lat - sw.lat) * ((1 : ℚ) / 2)
  let z := tileZoom + 1
  let id := nodeId * 4 + 1
  let c : LonLat := ⟨sw.lon + size_x, sw.lat + size_y⟩
  fun part =>
    match part with
    | .nw => ⟨.nw, QPart.val .nw + id, z, ⟨⟨sw.lon, sw.lat + size_y⟩, ⟨sw.lon + size_x, ne.lat⟩⟩⟩
    | .ne => ⟨.ne, QPart.val .ne + id, z, ⟨c, ⟨ne.lon, ne.lat⟩⟩⟩
    | .sw => ⟨.sw, QPart.val .sw + id, z, ⟨⟨sw.lon, sw.lat⟩, c⟩⟩
    | .se => ⟨.se, QPart.val .se + id, z, ⟨⟨sw.lon + size_x, sw.lat⟩, ⟨ne.lon, sw.lat + size_y⟩⟩⟩

/-- Scenario S4 of the spec: the registering node, at zoom 5 with grid size
32 (extent `[0,0]..[10,10]`, all per-side state initial). -/
def s4NodeA : RNode :=
  { id := 0, tileZoom := 5, extent := ⟨⟨0, 0⟩, ⟨10, 10⟩⟩, gridSize := 32,
    neighbors := fun _ => none, hasNeighbor := fun _ => false, sideSize := fun _ => 1 }

/-- Scenario S4 of the spec: the already-registered neighbour at zoom 3 with
grid size 32, east of `s4NodeA` (its latitude range contains A's). -/
def s4NodeB : RNode :=
  { id := 1, tileZoom := 3, extent := ⟨⟨10, 0⟩, ⟨20, 40⟩⟩, gridSize := 32,
    neighbors := fun _ => none, hasNeighbor := fun _ => false, sideSize := fun _ => 1 }

/-- Registering node for the C5 scenario: like `s4NodeA` but with the
`hasNeighbor` flag of its east side already set. -/
def c5Node : RNode :=
  { id := 0, tileZoom := 5, extent := ⟨⟨0, 0⟩, ⟨10, 10⟩⟩, gridSize := 32,
    neighbors := fun _ => none, hasNeighbor := updS (fun _ => false) .e true,
    sideSize := fun _ => 1 }

/-- Already-registered node for the C5 scenario: east of `c5Node`, west
`hasNeighbor` flag still unset. -/
def c5Ni : RNode :=
  { id := 1, tileZoom := 3, extent := ⟨⟨10, 0⟩, ⟨20, 40⟩⟩, gridSize := 32,
    neighbors := fun _ => none, hasNeighbor := fun _ => false, sideSize := fun _ => 1 }

/-- C5 witness scenario: both `hasNeighbor` flags already set on the shared
side, with recognisable prior side sizes. -/
def c5bNode : RNode :=
  { id := 0, tileZoom := 5, extent := ⟨⟨0, 0⟩, ⟨10, 10⟩⟩, gridSize := 32,
    neighbors := fun _ => none, hasNeighbor := fun _ => true, sideSize := fun _ => 7 }

/-- C5 witness scenario: the already-registered east neighbour, all flags
set. -/
def c5bNi : RNode :=
  { id := 1, tileZoom := 3, extent := ⟨⟨10, 0⟩, ⟨20, 40⟩⟩, gridSize := 32,
    neighbors := fun _ => none, hasNeighbor := fun _ => true, sideSize := fun _ => 9 }

/-- C2 scenario: a coarse node at zoom 3 covering `[0,0]..[10,10]`. -/
def c2A : RNode :=
  { id := 0, tileZoom := 3, extent := ⟨⟨0, 0⟩, ⟨10, 10⟩⟩, gridSize := 32,
    neighbors := fun _ => none, hasNeighbor := fun _ => false, sideSize := fun _ => 1 }

/-- C2 scenario: the southern of two zoom-4 nodes east of `c2A`. -/
def c2B : RNode :=
  { id := 1, tileZoom := 4, extent := ⟨⟨10, 0⟩, ⟨20, 5⟩⟩, gridSize := 32,
    neighbors := fun _ => none, hasNeighbor := fun _ => false, sideSize := fun _ => 1 }

/-- C2 scenario: the northern of two zoom-4 nodes east of `c2A`. -/
def c2C : RNode :=
  { id := 2, tileZoom := 4, extent := ⟨⟨10, 5⟩, ⟨20, 10⟩⟩, gridSize := 32,
    neighbors := fun _ => none, hasNeighbor := fun _ => false, sideSize := fun _ => 1 }

/-- C2 scenario: the rendered list after `c2A`, `c2B` and `c2C` have
registered, in that order, within one frame. -/
def c2FrameResult : List RNode :=
  addToRender c2C (addToRender c2B (addToRender c2A []))

/-- The two projections a segment can carry (`EPSG3857.js` / `EPSG4326.js`,
used through their `id` fields only). -/
inductive Proj where
  | epsg3857
  | epsg4326
deriving DecidableEq

/-- The camera state read by `renderTree`: the geographic position
`cam._lonLat` and its mercator image `cam._lonLatMerc`. -/
structure CamState where
  lonLat : LonLat
  lonLatMerc : LonLat
deriving DecidableEq

/-- The camera-inside step of `Node.prototype.renderTree` for a non-root
node: `_cameraInside` starts false; when the parent was inside, the mercator
test runs if `|cam.lat| ≤ MAX_LAT` and the projection is EPSG3857, otherwise
the equirectangular test runs only if the projection is EPSG4326; when
neither branch fires, `inside` stays undefined and the flag remains false. -/
def cameraInside (parentInside : Bool) (proj : Proj) (cam : CamState) (ext : Extent) : Bool :=
  if parentInside then
    if |cam.lonLat.lat| ≤ MAX_LAT ∧ proj = .epsg3857 then
      decide (ext.isInside cam.lonLatMerc)
    else if proj = .epsg4326 then
      decide (ext.isInside cam.lonLat)
    else
      false
  else
    false

/-- The camera-inside rule as claim C6 words it (a test is always performed:
mercator when the projection is EPSG3857 and `|lat| ≤ MAX_LAT`, otherwise
equirectangular) — stated only to be compared with `cameraInside`. -/
def cameraInsideClaim (parentInside : Bool) (proj : Proj) (cam : CamState) (ext : Extent) : Bool :=
  if parentInside then
    if proj = .epsg3857 ∧ |cam.lonLat.lat| ≤ MAX_LAT then
      decide (ext.isInside cam.lonLatMerc)
    else
      decide (ext.isInside cam.lonLat)
  else
    false

/-- C6 scenario: a camera above the mercator cutoff latitude. -/
def c6Cam : CamState :=
  { lonLat := ⟨10, 86⟩, lonLatMerc := ⟨1000000, 20000000⟩ }

/-- C6 scenario: a segment extent that contains the camera's geographic
lon/lat point. -/
def c6Ext : Extent := ⟨⟨0, 0⟩, ⟨200, 200⟩⟩

/-- `getMatrixSubArray` of `Node.js`: reads the `(size+1) × (size+1)`
sub-grid starting at row `i0`, column `j0` of a row-major vertex grid with
`gridSize+1` points per row, writing the triples sequentially.  As in the
source, the result array is allocated with
`(i0+size+1) * (j0+size+1) * 3` entries (`new Float32Array(i0size *
j0size * 3)`), so every entry beyond the `(size+1)² * 3` written ones keeps
the `Float32Array` zero fill. -/
def getMatrixSubArray (sourceArr : List ℚ) (gridSize i0 j0 size : ℕ) : List ℚ :=
  let written :=
    (List.range (size + 1)).flatMap fun di =>
      (List.range (size + 1)).flatMap fun dj =>
        let ind := 3 * ((i0 + di) * (gridSize + 1) + (j0 + dj))
        [sourceArr.getD ind 0, sourceArr.getD (ind + 1) 0, sourceArr.getD (ind + 2) 0]
  written ++ List.replicate ((i0 + size + 1) * (j0 + size + 1) * 3 - written.length) 0

/-- What the `subGrid ≥ 1` arm of the inheritance step in
`Node.prototype.whileTerrainLoading` writes into the segment: the new grid
size, the four side sizes, and the vertex array taken from the ancestor. -/
structure InheritResult where
  gridSize : ℕ
  sideSize : Side → ℤ
  tempVertices : List ℚ

/-- The `subGrid ≥ 1` arm of the inheritance step in
`Node.prototype.whileTerrainLoading` (run when the nearest `terrainReady`
ancestor has real terrain and differs from `appliedTerrainNodeId`):
`gridSize` becomes `pseg.gridSize / dZ2`, all four side sizes become that
grid size, and the vertices are extracted by `getMatrixSubArray` at the
sub-patch starting at row `gridSize*offsetY`, column `gridSize*offsetX`.
`dZ2` divides `pGridSize` in every reachable call (both are powers of
two and the quotient is at least 1 in this arm). -/
def whileTerrainLoading_inherit (pGridSize : ℕ) (pVerts : List ℚ)
    (dZ2 offX offY : ℕ) : InheritResult :=
  let gridSize := pGridSize / dZ2
  { gridSize := gridSize
    sideSize := fun _ => (gridSize : ℤ)
    tempVertices :=
      getMatrixSubArray pVerts pGridSize (gridSize * offY) (gridSize * offX) gridSize }

/-- C3 scenario: an ancestor vertex array for grid size 4 — 25 vertices,
75 floats, each entry holding its own index so sub-sampling is visible. -/
def c3PVerts : List ℚ := (List.range 75).map fun n => (n : ℚ)

/-- C3 scenario: the 27 floats of the `(2+1)²` vertices sub-sampled from
`c3PVerts` at rows 0..2, columns 2..4. -/
def c3Expected : List ℚ :=
  ([6, 7, 8, 9, 10, 11, 12, 13, 14,
    21, 22, 23, 24, 25, 26, 27, 28, 29,
    36, 37, 38, 39, 40, 41, 42, 43, 44] : List ℕ).map fun n => (n : ℚ)

/-- The per-segment state read by `whileNormalMapCreating`: tile
coordinates, normal-map readiness, and the normal-map texture handle
(modelled as a number). -/
structure NMSeg where
  tileZoom : ℕ
  tileX : ℕ
  tileY : ℕ
  normalMapReady : Bool
  texture : ℕ
deriving DecidableEq

/-- The ancestor walk
`while (pn.parentNode && !pn.segment.normalMapReady) pn = pn.parentNode`
over the chain `self :: ancestors` (nearest parent first, root last): stops
at the first segment with `normalMapReady`, or at the root. -/
def findNormalMapAncestor : NMSeg → List NMSeg → NMSeg
  | cur, [] => cur
  | cur, p :: rest => if cur.normalMapReady then cur else findNormalMapAncestor p rest

/-- JavaScript `2 << (selfZoom - pnZoom - 1)`: equals `2^(selfZoom - pnZoom)`
when the difference is at least 1, and 0 when the difference is 0 (a shift
count of −1 is taken mod 32, overflowing a 32-bit result to 0). -/
def dZ2shift (selfZoom pnZoom : ℕ) : ℕ :=
  if pnZoom < selfZoom then 2 ^ (selfZoom - pnZoom) else 0

/-- The texture handle and bias triple written by `whileNormalMapCreating`
into the segment. -/
structure NMResult where
  texture : ℕ
  biasX : ℤ
  biasY : ℤ
  biasZ : ℚ
deriving DecidableEq

/-- The assignment part of `Node.prototype.whileNormalMapCreating`: walk up
to the node `pn` where the search stops and assign the segment's
`normalMapTexture` and `normalMapTextureBias` from it — with no guard on
`pn.segment.normalMapReady`. -/
def whileNormalMapCreating (seg : NMSeg) (ancestors : List NMSeg) : NMResult :=
  let pn := findNormalMapAncestor seg ancestors
  let dZ2 := dZ2shift seg.tileZoom pn.tileZoom
  { texture := pn.texture
    biasX := (seg.tileX : ℤ) - (pn.tileX : ℤ) * (dZ2 : ℤ)
    biasY := (seg.tileY : ℤ) - (pn.tileY : ℤ) * (dZ2 : ℤ)
    biasZ := ((dZ2 : ℚ))⁻¹ }

/-- C10 scenario: a zoom-2 segment with no normal map of its own. -/
def c10Seg : NMSeg :=
  { tileZoom := 2, tileX := 3, tileY := 1, normalMapReady := false, texture := 10 }

/-- C10 scenario: its zoom-1 parent, normal map not ready. -/
def c10Mid : NMSeg :=
  { tileZoom := 1, tileX := 1, tileY := 0, normalMapReady := false, texture := 20 }

/-- C10 scenario: the root, normal map not ready either. -/
def c10Root : NMSeg :=
  { tileZoom := 0, tileX := 0, tileY := 0, normalMapReady := false, texture := 30 }

/-- The heap of nodes seen by `destroy`: each node identifier maps to its
neighbour array while the node is live, and to `none` once destroyed
(`this.neighbors = null`). -/
def World : Type := ℕ → Option (Side → Option ℕ)

/-- Pointwise update of the node heap. -/
def updW (w : World) (i : ℕ) (v : Option (Side → Option ℕ)) : World :=
  fun j => if j = i then v else w j

/-- One of the four statements
`n[s] && n[s].neighbors && (n[s].neighbors[OPSIDE s] = null)` of
`Node.prototype.destroy`: if side `sd` of node `aId` holds a neighbour that
is still live, null out that neighbour's slot on the opposite side. -/
def destroyStep (w : World) (aId : ℕ) (sd : Side) : World :=
  match w aId with
  | none => w
  | some nbA =>
    match nbA sd with
    | none => w
    | some ni =>
      match w ni with
      | none => w
      | some nbi => updW w ni (some (updS nbi (OPSIDE sd) none))

/-- `Node.prototype.destroy`: run the four per-side statements in source
order N, E, S, W, then drop the node's own arrays
(`this.neighbors = null`). -/
def destroy (w : World) (aId : ℕ) : World :=
  updW (destroyStep (destroyStep (destroyStep (destroyStep w aId .n) aId .e) aId .s) aId .w)
    aId none

/-- C9 scenario: the neighbour array of node 1, pointing back at node 0
across its south side. -/
def c9Rec1 : Side → Option ℕ := updS (fun _ => none) Side.s (some 0)

/-- C9 scenario: the neighbour array of node 0, holding node 1 on its north
side. -/
def c9NbA : Side → Option ℕ := updS (fun _ => none) Side.n (some 1)

/-- C9 scenario: a two-node heap with the symmetric link 0 –N/S– 1. -/
def c9World : World :=
  fun j => if j = 0 then some c9NbA else if j = 1 then some c9Rec1 else none

/-- A quadtree shape: each node has four child slots which are `none` until
`createChildrenNodes` fills them (the `nodes` array starts as four nulls). -/
inductive QTree where
  | node (nw ne sw se : Option QTree)

/-- The `nodes[part]` access on a tree node. -/
def QTree.child : QTree → QPart → Option QTree
  | .node c _ _ _, .nw => c
  | .node _ c _ _, .ne => c
  | .node _ _ c _, .sw => c
  | .node _ _ _ c, .se => c

/-- Follow a child path from a (possibly absent) node; `none` as soon as a
child slot along the way is empty. -/
def nodeAt : Option QTree → List QPart → Option QTree
  | t, [] => t
  | none, _ :: _ => none
  | some t, p :: ps => nodeAt (t.child p) ps

/-- The descent loop of `getEqualNeighbor`:
`while (pn && i--) { part = OPPART[side][pathId[i]]; pn = pn.nodes[part]; }`
— mirrors each recorded part across the (already flipped) side, stopping
with `null` when a child slot is empty. -/
def descendMirror : Option QTree → Side → List QPart → Option QTree
  | t, _, [] => t
  | none, _, _ :: _ => none
  | some t, sd, q :: qs => descendMirror (t.child (OPPART sd q)) sd qs

/-- The upward loop of `getEqualNeighbor`: the first list argument is the
remaining chain of partIds from the current node up to the root (deepest
first), the accumulator is the `pathId` stack with the most recent push in
front.  At the first ancestor whose `NEIGHBOUR` entry is not −1 the side is
flipped and the recorded path is mirrored downwards from that ancestor's
parent; if the root is reached without such an entry the function falls off
the loop (`undefined`, here `none`). -/
def walkUp (root : QTree) (sd : Side) : List QPart → List QPart → Option QTree
  | [], _ => none
  | p :: up, acc =>
    match NEIGHBOUR sd p with
    | some _ => descendMirror (nodeAt (some root) up.reverse) (OPSIDE sd) (p :: acc)
    | none => walkUp root sd up (p :: acc)

/-- `Node.prototype.getEqualNeighbor`, with the node identified by its path
of partIds from `root` (last element = the node's own `partId`): a
non-negative `NEIGHBOUR` entry returns the sibling directly, otherwise the
path is walked up and mirrored back down (`walkUp`).  The root itself
(empty path) has no parent, giving `none`. -/
def getEqualNeighbor (root : QTree) (path : List QPart) (sd : Side) : Option QTree :=
  match path.reverse with
  | [] => none
  | pk :: up =>
    match NEIGHBOUR sd pk with
    | some sib => nodeAt (some root) (up.reverse ++ [sib])
    | none => walkUp root sd (pk :: up) []

/-- The same-depth neighbour path, on reversed paths (deepest part first):
peel parts until one has a sibling across `sd`, replace it by that sibling
and mirror every peeled part across the shared edge; `none` when the
boundary of the whole tree is reached. -/
def neighborRev (sd : Side) : List QPart → Option (List QPart)
  | [] => none
  | p :: up =>
    match NEIGHBOUR sd p with
    | some sib => some (sib :: up)
    | none => (neighborRev sd up).map fun r => OPPART (OPSIDE sd) p :: r

/-- An empty tree node (no children created). -/
def qLeaf : QTree := .node none none none none

/-- C8 counterexample tree: the NW child has all four children, the NE
child exists but has none. -/
def c8Shallow : QTree :=
  .node (some (.node (some qLeaf) (some qLeaf) (some qLeaf) (some qLeaf)))
    (some qLeaf) (some qLeaf) (some qLeaf)

/-- C8 witness tree (scenario S6): both the NW and NE children have their
four children, so the same-depth neighbour of NW's NE child across E
exists: the NE child's NW child. -/
def c8Deep : QTree :=
  .node (some (.node (some qLeaf) (some qLeaf) (some qLeaf) (some qLeaf)))
    (some (.node (some qLeaf) (some qLeaf) (some qLeaf) (some qLeaf)))
    (some qLeaf) (some qLeaf)

/-- C1: in `addToRender`, for every already-registered node `ni` sharing a
side `cs` with the registering node and for which negotiation runs, with
`ld = node.gridSize / (ni.gridSize · 2^(ni.tileZoom − node.tileZoom))`:
if `ld > 1` the registering node's side becomes `ceil(gridSize / ld)` and the
other keeps its own grid size; if `ld < 1` the registering node keeps its
grid size and the other side becomes `ceil(ni.gridSize · ld)`; if `ld = 1`
both sides get their own grid sizes. -/
theorem C1_addToRender_negotiation (node ni : RNode) (cs : Side) (ld : ℚ)
    (hcs : getCommonSide node.tileZoom node.extent ni.extent = some cs)
    (hrun : ¬(node.hasNeighbor cs = true ∧ ni.hasNeighbor (OPSIDE cs) = true))
    (hld : ld = (node.gridSize : ℚ) /
      ((ni.gridSize : ℚ) * pow2 ((ni.tileZoom : ℤ) - (node.tileZoom : ℤ)))) :
    (1 < ld →
      (addNodeStep node ni).1.sideSize cs = jsCeil ((node.gridSize : ℚ) / ld) ∧
      (addNodeStep node ni).2.sideSize (OPSIDE cs) = (ni.gridSize : ℤ)) ∧
    (ld < 1 →
      (addNodeStep node ni).1.sideSize cs = (node.gridSize : ℤ) ∧
      (addNodeStep node ni).2.sideSize (OPSIDE cs) = jsCeil ((ni.gridSize : ℚ) * ld)) ∧
    (ld = 1 →
      (addNodeStep node ni).1.sideSize cs = (node.gridSize : ℤ) ∧
      (addNodeStep node ni).2.sideSize (OPSIDE cs) = (ni.gridSize : ℤ)) := by
  have hguard : (node.hasNeighbor cs && ni.hasNeighbor (OPSIDE cs)) = false := by
    cases h1 : node.hasNeighbor cs
    · simp
    · cases h2 : ni.hasNeighbor (OPSIDE cs)
      · simp
      · exact absurd ⟨h1, h2⟩ hrun
  subst hld
  unfold addNodeStep
  rw [hcs]
  simp only [hguard, Bool.false_eq_true, if_false]
  refine ⟨fun hgt => ?_, fun hlt => ?_, fun heq => ?_⟩
  · rw [if_pos hgt]
    exact ⟨by simp [updS], by simp [updS]⟩
  · rw [if_neg (by simp [not_lt.2 (le_of_lt hlt)] ), if_pos hlt]
    exact ⟨by simp [updS], by simp [updS]⟩
  · rw [if_neg (by simp [heq]), if_neg (by simp [heq])]
    exact ⟨by simp [updS], by simp [updS]⟩

/-- C1 witness: scenario S4 — a node at zoom 5 and a neighbour at zoom 3,
both with grid size 32, give `ld = 4`; the deeper node's east side size
becomes `ceil(32/4) = 8` and the coarser node's west side size stays 32. -/
theorem C1_addToRender_negotiation_witness :
    getCommonSide s4NodeA.tileZoom s4NodeA.extent s4NodeB.extent = some Side.e ∧
    (addNodeStep s4NodeA s4NodeB).1.sideSize Side.e = 8 ∧
    (addNodeStep s4NodeA s4NodeB).2.sideSize Side.w = 32 := by
  have h := C1_addToRender_negotiation s4NodeA s4NodeB Side.e
    ((32 : ℚ) / ((32 : ℚ) * pow2 ((3 : ℤ) - (5 : ℤ))))
    (by decide) (by decide) (by decide)
  have h1 := (h.1 (by decide)).1
  have h2 := (h.1 (by decide)).2
  exact ⟨by decide, h1.trans (by decide), h2.trans (by decide)⟩

/-- C4: `createChildrenNodes` produces exactly four children whose extents
are the four equal quadrants split at the midpoint
`(lon0 + w/2, lat0 + h/2)`, each with `tileZoom = parent + 1` and
`nodeId = parent.nodeId*4 + {1,2,3,4}` for NW, NE, SW, SE respectively; in
particular parent extent `[0,0]..[10,10]` yields NW `[0,5]..[5,10]`,
NE `[5,5]..[10,10]`, SW `[0,0]..[5,5]`, SE `[5,0]..[10,5]`. -/
theorem C4_createChildrenNodes_quadrants :
    (∀ (nodeId tileZoom : ℕ) (ext : Extent),
      let lon0 := ext.southWest.lon
      let lat0 := ext.southWest.lat
      let lon1 := ext.northEast.lon
      let lat1 := ext.northEast.lat
      let midLon := lon0 + (lon1 - lon0) / 2
      let midLat := lat0 + (lat1 - lat0) / 2
      createChildrenNodes nodeId tileZoom ext .nw =
        ⟨.nw, nodeId * 4 + 1, tileZoom + 1, ⟨⟨lon0, midLat⟩, ⟨midLon, lat1⟩⟩⟩ ∧
      createChildrenNodes nodeId tileZoom ext .ne =
        ⟨.ne, nodeId * 4 + 2, tileZoom + 1, ⟨⟨midLon, midLat⟩, ⟨lon1, lat1⟩⟩⟩ ∧
      createChildrenNodes nodeId tileZoom ext .sw =
        ⟨.sw, nodeId * 4 + 3, tileZoom + 1, ⟨⟨lon0, lat0⟩, ⟨midLon, midLat⟩⟩⟩ ∧
      createChildrenNodes nodeId tileZoom ext .se =
        ⟨.se, nodeId * 4 + 4, tileZoom + 1, ⟨⟨midLon, lat0⟩, ⟨lon1, midLat⟩⟩⟩) ∧
    (createChildrenNodes 0 0 ⟨⟨0, 0⟩, ⟨10, 10⟩⟩ .nw =
        ⟨.nw, 1, 1, ⟨⟨0, 5⟩, ⟨5, 10⟩⟩⟩ ∧
      createChildrenNodes 0 0 ⟨⟨0, 0⟩, ⟨10, 10⟩⟩ .ne =
        ⟨.ne, 2, 1, ⟨⟨5, 5⟩, ⟨10, 10⟩⟩⟩ ∧
      createChildrenNodes 0 0 ⟨⟨0, 0⟩, ⟨10, 10⟩⟩ .sw =
        ⟨.sw, 3, 1, ⟨⟨0, 0⟩, ⟨5, 5⟩⟩⟩ ∧
      createChildrenNodes 0 0 ⟨⟨0, 0⟩, ⟨10, 10⟩⟩ .se =
        ⟨.se, 4, 1, ⟨⟨5, 0⟩, ⟨10, 5⟩⟩⟩) := by
  constructor
  · intro nodeId tileZoom ext
    refine ⟨?_, ?_, ?_, ?_⟩ <;>
      simp only [createChildrenNodes, QPart.val, ChildNode.mk.injEq, Extent.mk.injEq,
        LonLat.mk.injEq] <;>
      repeat' apply And.intro
    all_goals first
      | rfl
      | omega
      | ring_nf
  · exact ⟨by decide, by decide, by decide, by decide⟩

/-- C5 counterexample: with the registering node's east flag already set but
the neighbour's west flag still unset, `addToRender` still negotiates and
changes both side sizes, contradicting the claim that any already-set flag
leaves the side sizes unchanged. -/
theorem C5_negotiation_guard_cex :
    c5Node.hasNeighbor Side.e = true ∧
    c5Ni.hasNeighbor (OPSIDE Side.e) = false ∧
    getCommonSide c5Node.tileZoom c5Node.extent c5Ni.extent = some Side.e ∧
    (addNodeStep c5Node c5Ni).1.sideSize Side.e ≠ c5Node.sideSize Side.e ∧
    (addNodeStep c5Node c5Ni).2.sideSize (OPSIDE Side.e) ≠ c5Ni.sideSize (OPSIDE Side.e) := by
  refine ⟨by decide, by decide, by decide, by decide, by decide⟩

/-- C5 (amended): the negotiation is skipped exactly when both `hasNeighbor`
flags are already true — in that case the side sizes of both nodes are left
unchanged by the encounter — and it runs (setting both flags) whenever at
least one of the two flags is still false. -/
theorem C5_negotiation_guard (node ni : RNode) (cs : Side)
    (hcs : getCommonSide node.tileZoom node.extent ni.extent = some cs) :
    (node.hasNeighbor cs = true ∧ ni.hasNeighbor (OPSIDE cs) = true →
      (addNodeStep node ni).1.sideSize = node.sideSize ∧
      (addNodeStep node ni).2.sideSize = ni.sideSize) ∧
    (¬(node.hasNeighbor cs = true ∧ ni.hasNeighbor (OPSIDE cs) = true) →
      (addNodeStep node ni).1.hasNeighbor cs = true ∧
      (addNodeStep node ni).2.hasNeighbor (OPSIDE cs) = true) := by
  constructor
  · rintro ⟨h1, h2⟩
    unfold addNodeStep
    rw [hcs]
    dsimp only
    rw [h1, h2]
    exact ⟨rfl, rfl⟩
  · intro hrun
    have hguard : (node.hasNeighbor cs && ni.hasNeighbor (OPSIDE cs)) = false := by
      cases h1 : node.hasNeighbor cs
      · simp
      · cases h2 : ni.hasNeighbor (OPSIDE cs)
        · simp
        · exact absurd ⟨h1, h2⟩ hrun
    unfold addNodeStep
    rw [hcs]
    simp only [hguard, Bool.false_eq_true, if_false]
    split_ifs <;> exact ⟨by simp [updS], by simp [updS]⟩

/-- C5 witness: with both flags already true on the shared side, the side
sizes of both nodes survive the encounter unchanged. -/
theorem C5_negotiation_guard_witness :
    getCommonSide c5bNode.tileZoom c5bNode.extent c5bNi.extent = some Side.e ∧
    (addNodeStep c5bNode c5bNi).1.sideSize = c5bNode.sideSize ∧
    (addNodeStep c5bNode c5bNi).2.sideSize = c5bNi.sideSize := by
  have h := (C5_negotiation_guard c5bNode c5bNi Side.e (by decide)).1 ⟨rfl, rfl⟩
  exact ⟨by decide, h.1, h.2⟩

theorem addNodeStep_of_none {a b : RNode}
    (h : getCommonSide a.tileZoom a.extent b.extent = none) :
    addNodeStep a b = (a, b) := by
  unfold addNodeStep
  rw [h]

theorem addNodeStep_neighbors_of_some {a b : RNode} {cs : Side}
    (h : getCommonSide a.tileZoom a.extent b.extent = some cs) :
    (addNodeStep a b).1.neighbors = updS a.neighbors cs (some b.id) ∧
    (addNodeStep a b).2.neighbors = updS b.neighbors (OPSIDE cs) (some a.id) := by
  unfold addNodeStep
  rw [h]
  dsimp only
  split_ifs <;> exact ⟨rfl, rfl⟩

theorem addNodeStep_fst_id (a b : RNode) : (addNodeStep a b).1.id = a.id := by
  unfold addNodeStep
  cases h : getCommonSide a.tileZoom a.extent b.extent
  · rfl
  · dsimp only
    split_ifs <;> rfl

theorem addNodeStep_snd_id (a b : RNode) : (addNodeStep a b).2.id = b.id := by
  unfold addNodeStep
  cases h : getCommonSide a.tileZoom a.extent b.extent
  · rfl
  · dsimp only
    split_ifs <;> rfl

theorem scanRev_fst_id : ∀ (l : List RNode) (a : RNode), (scanRev a l).1.id = a.id := by
  intro l
  induction l with
  | nil => intro a; rfl
  | cons b rest ih =>
    intro a
    show (scanRev (addNodeStep a b).1 rest).1.id = a.id
    rw [ih (addNodeStep a b).1, addNodeStep_fst_id]

theorem scanRev_backlink :
    ∀ (l : List RNode) (a : RNode) (sd : Side) (i : ℕ),
      (scanRev a l).1.neighbors sd = some i →
      a.neighbors sd = some i ∨
        ∃ x ∈ (scanRev a l).2, x.id = i ∧ x.neighbors (OPSIDE sd) = some a.id := by
  intro l
  induction l with
  | nil => intro a sd i h; exact Or.inl h
  | cons b rest ih =>
    intro a sd i h
    have hup : (scanRev a (b :: rest)).2 = (addNodeStep a b).2 :: (scanRev (addNodeStep a b).1 rest).2 := rfl
    have h' : (scanRev (addNodeStep a b).1 rest).1.neighbors sd = some i := h
    rcases ih (addNodeStep a b).1 sd i h' with h0 | ⟨x, hx, hxi, hxb⟩
    · cases hcs : getCommonSide a.tileZoom a.extent b.extent with
      | none =>
        rw [addNodeStep_of_none hcs] at h0
        exact Or.inl h0
      | some cs =>
        rw [(addNodeStep_neighbors_of_some hcs).1] at h0
        by_cases hsd : sd = cs
        · subst hsd
          have hib : i = b.id := by
            have : updS a.neighbors sd (some b.id) sd = some b.id := by simp [updS]
            rw [this] at h0
            exact (Option.some.injEq _ _ ▸ h0.symm)
          refine Or.inr ⟨(addNodeStep a b).2, ?_, ?_, ?_⟩
          · rw [hup]; exact List.mem_cons_self _ _
          · rw [addNodeStep_snd_id, hib]
          · rw [(addNodeStep_neighbors_of_some hcs).2]; simp [updS]
        · have : updS a.neighbors cs (some b.id) sd = a.neighbors sd := by simp [updS, hsd]
          rw [this] at h0
          exact Or.inl h0
    · refine Or.inr ⟨x, ?_, hxi, ?_⟩
      · rw [hup]; exact List.mem_cons_of_mem _ hx
      · rw [hxb, addNodeStep_fst_id]

/-- C2 counterexample: after `c2A`, `c2B` and `c2C` complete `addToRender`
in one frame, `c2B` (list position 1) still has `c2A` as its west
neighbour, but `c2A` (position 0) now names `c2C` — not `c2B` — on its
opposite (east) side, so neighbour back-references are not symmetric over
the rendered set. -/
theorem C2_neighbor_symmetry_cex :
    (c2FrameResult.get? 1).map (fun x => (x.id, x.neighbors Side.w)) = some (1, some 0) ∧
    (c2FrameResult.get? 0).map (fun x => (x.id, x.neighbors Side.e)) = some (0, some 2) ∧
    (c2FrameResult.get? 0).map (fun x => x.neighbors (OPSIDE Side.w)) ≠ some (some 1) := by
  refine ⟨by decide, by decide, by decide⟩

/-- C2 (amended): symmetry holds for the node that has just registered —
immediately after a node with cleared neighbour slots completes
`addToRender`, every neighbour it acquired holds the matching back-reference
on the opposite side.  (A later registration may overwrite one end of an
older link, which is what the counterexample exhibits for the full rendered
set.) -/
theorem C2_fresh_node_symmetry (nodes : List RNode) (node : RNode)
    (hclear : ∀ sd, node.neighbors sd = none) (sd : Side) (i : ℕ)
    (h : (scanRev node nodes.reverse).1.neighbors sd = some i) :
    ∃ x ∈ addToRender node nodes, x.id = i ∧ x.neighbors (OPSIDE sd) = some node.id := by
  rcases scanRev_backlink nodes.reverse node sd i h with h0 | ⟨x, hx, hxi, hxb⟩
  · rw [hclear sd] at h0
    cases h0
  · refine ⟨x, ?_, hxi, hxb⟩
    unfold addToRender
    exact List.mem_append_left _ (List.mem_reverse.2 hx)

/-- C2 witness: in the three-node frame of the counterexample, the freshly
registered node `c2C` itself has symmetric links: its west neighbour (`c2A`,
id 0) points back to `c2C` on the east side. -/
theorem C2_fresh_node_symmetry_witness :
    (scanRev c2C (addToRender c2B (addToRender c2A [])).reverse).1.neighbors Side.w = some 0 ∧
    ∃ x ∈ addToRender c2C (addToRender c2B (addToRender c2A [])),
      x.id = 0 ∧ x.neighbors (OPSIDE Side.w) = some c2C.id := by
  refine ⟨by decide, C2_fresh_node_symmetry _ c2C (by intro sd; cases sd <;> rfl) Side.w 0 (by decide)⟩

/-- C7: for latitude-nested extents whose ordinary longitude-equality tests
fail, at `tileZoom > 0`, both antimeridian configurations are treated as
E-adjacency by `getCommonSide`, and — because the third polar-longitude
branch duplicates the second — the polar-wrap rules can never produce `W`. -/
theorem C7_getCommonSide_polar_wrap (tileZoom : ℕ) (a b : Extent)
    (hlat : (a.northEast.lat ≤ b.northEast.lat ∧ a.southWest.lat ≥ b.southWest.lat) ∨
      (a.northEast.lat ≥ b.northEast.lat ∧ a.southWest.lat ≤ b.southWest.lat))
    (hne1 : a.northEast.lon ≠ b.southWest.lon)
    (hne2 : a.southWest.lon ≠ b.northEast.lon)
    (hz : 0 < tileZoom) :
    ((a.northEast.lon = POLE ∧ b.southWest.lon = -POLE) ∨
        (a.southWest.lon = -POLE ∧ b.northEast.lon = POLE) →
      getCommonSide tileZoom a b = some Side.e) ∧
    getCommonSide tileZoom a b ≠ some Side.w := by
  unfold getCommonSide
  rw [if_pos hlat, if_neg hne1, if_neg hne2, if_pos hz]
  constructor
  · rintro (h | h)
    · rw [if_pos h]
    · by_cases h1 : a.northEast.lon = POLE ∧ b.southWest.lon = -POLE
      · rw [if_pos h1]
      · rw [if_neg h1, if_pos h]
  · by_cases h1 : a.northEast.lon = POLE ∧ b.southWest.lon = -POLE
    · rw [if_pos h1]
      simp
    · rw [if_neg h1]
      by_cases h2 : a.southWest.lon = -POLE ∧ b.northEast.lon = POLE
      · rw [if_pos h2]
        simp
      · rw [if_neg h2, if_neg h2]
        simp

/-- C7 witness: a tile reaching the antimeridian from the west
(`[170,0]..[180,10]`) and one starting at it from the east
(`[-180,-20]..[-170,30]`) at zoom 3 are classified as E-adjacent, and the
result is not `W`. -/
theorem C7_getCommonSide_polar_wrap_witness :
    getCommonSide 3 ⟨⟨170, 0⟩, ⟨180, 10⟩⟩ ⟨⟨-180, -20⟩, ⟨-170, 30⟩⟩ = some Side.e ∧
    getCommonSide 3 ⟨⟨170, 0⟩, ⟨180, 10⟩⟩ ⟨⟨-180, -20⟩, ⟨-170, 30⟩⟩ ≠ some Side.w := by
  have h := C7_getCommonSide_polar_wrap 3 ⟨⟨170, 0⟩, ⟨180, 10⟩⟩ ⟨⟨-180, -20⟩, ⟨-170, 30⟩⟩
    (by decide) (by decide) (by decide) (by decide)
  exact ⟨h.1 (Or.inl ⟨by decide, by decide⟩), h.2⟩

/-- C6 counterexample: for a mercator-projection segment with the camera
above `MAX_LAT`, the claim's rule performs the equirectangular test (which
passes here), but the code performs no test at all and leaves
`_cameraInside` false. -/
theorem C6_camera_inside_cex :
    MAX_LAT < |c6Cam.lonLat.lat| ∧
    cameraInsideClaim true Proj.epsg3857 c6Cam c6Ext = true ∧
    cameraInside true Proj.epsg3857 c6Cam c6Ext = false := by
  refine ⟨by decide, by decide, by decide⟩

/-- C6 (amended): when the parent was inside, the mercator test runs exactly
for EPSG3857 segments with `|cam.lat| ≤ MAX_LAT` and the equirectangular
test exactly for EPSG4326 segments; for an EPSG3857 segment with
`|cam.lat| > MAX_LAT` no test is performed and `_cameraInside` stays false;
without the parent inside it stays false as well. -/
theorem C6_camera_inside (proj : Proj) (cam : CamState) (ext : Extent) :
    (proj = .epsg3857 → MAX_LAT < |cam.lonLat.lat| →
      cameraInside true proj cam ext = false) ∧
    (proj = .epsg3857 → |cam.lonLat.lat| ≤ MAX_LAT →
      cameraInside true proj cam ext = decide (ext.isInside cam.lonLatMerc)) ∧
    (proj = .epsg4326 →
      cameraInside true proj cam ext = decide (ext.isInside cam.lonLat)) ∧
    cameraInside false proj cam ext = false := by
  refine ⟨?_, ?_, ?_, rfl⟩
  · intro hp hlat
    subst hp
    unfold cameraInside
    rw [if_pos rfl, if_neg (fun h => absurd h.1 (not_le.2 hlat)),
      if_neg (fun h => by cases h)]
  · intro hp hlat
    subst hp
    unfold cameraInside
    rw [if_pos rfl, if_pos ⟨hlat, rfl⟩]
  · intro hp
    subst hp
    unfold cameraInside
    rw [if_pos rfl, if_neg (fun h => by cases h.2), if_pos rfl]

/-- C6 witness: at the counterexample camera, an EPSG4326 segment gets the
equirectangular test (which passes), and an EPSG3857 segment above the
cutoff stays outside. -/
theorem C6_camera_inside_witness :
    cameraInside true Proj.epsg4326 c6Cam c6Ext = decide (c6Ext.isInside c6Cam.lonLat) ∧
    MAX_LAT < |c6Cam.lonLat.lat| ∧
    cameraInside true Proj.epsg3857 c6Cam c6Ext = false := by
  refine ⟨(C6_camera_inside Proj.epsg4326 c6Cam c6Ext).2.2.1 rfl, by decide,
    (C6_camera_inside Proj.epsg3857 c6Cam c6Ext).1 rfl (by decide)⟩

/-- C3 (code evaluated at the failing input): inheriting from an ancestor
with grid size 4 at `dZ2 = 2`, `offsetX = 1`, `offsetY = 0` (so
`subGrid = 2`) sets `gridSize` and all four side sizes to 2 as the claim
says, and the first 27 floats are exactly the `(subGrid+1)²` sub-sampled
ancestor vertices — but the inherited array has `(0+3)·(2+3)·3 = 45`
entries, not `3·(subGrid+1)² = 27`: the allocation uses the offset-shifted
bounds, leaving 18 trailing zeros. -/
theorem C3_inherit_subgrid_overallocation :
    (whileTerrainLoading_inherit 4 c3PVerts 2 1 0).gridSize = 2 ∧
    (whileTerrainLoading_inherit 4 c3PVerts 2 1 0).sideSize Side.n = 2 ∧
    (whileTerrainLoading_inherit 4 c3PVerts 2 1 0).sideSize Side.e = 2 ∧
    (whileTerrainLoading_inherit 4 c3PVerts 2 1 0).sideSize Side.s = 2 ∧
    (whileTerrainLoading_inherit 4 c3PVerts 2 1 0).sideSize Side.w = 2 ∧
    (whileTerrainLoading_inherit 4 c3PVerts 2 1 0).tempVertices.take 27 = c3Expected ∧
    (whileTerrainLoading_inherit 4 c3PVerts 2 1 0).tempVertices.length = 45 ∧
    (whileTerrainLoading_inherit 4 c3PVerts 2 1 0).tempVertices.drop 27 =
      List.replicate 18 0 ∧
    45 ≠ 3 * (2 + 1) ^ 2 := by
  refine ⟨rfl, rfl, rfl, rfl, rfl, by decide, by decide, by decide, by decide⟩

theorem getLastD_self_or_mem {α : Type} (l : List α) (d : α) :
    l.getLastD d = d ∨ l.getLastD d ∈ l := by
  induction l generalizing d with
  | nil => exact Or.inl rfl
  | cons a rest ih =>
    rw [List.getLastD_cons]
    rcases ih a with h | h
    · rw [h]
      exact Or.inr (List.mem_cons_self a rest)
    · exact Or.inr (List.mem_cons_of_mem a h)

theorem findNormalMapAncestor_of_none :
    ∀ (ancestors : List NMSeg) (seg : NMSeg),
      seg.normalMapReady = false → (∀ x ∈ ancestors, x.normalMapReady = false) →
      findNormalMapAncestor seg ancestors = ancestors.getLastD seg := by
  intro ancestors
  induction ancestors with
  | nil => intro seg _ _; rfl
  | cons p rest ih =>
    intro seg h0 h1
    show (if seg.normalMapReady then seg else findNormalMapAncestor p rest) = _
    rw [h0, if_neg (by simp), List.getLastD_cons]
    exact ih p (h1 p (List.mem_cons_self p rest)) fun x hx => h1 x (List.mem_cons_of_mem p hx)

/-- C10: `whileNormalMapCreating` assigns the segment's normal-map texture
and bias unconditionally from the node where the ancestor walk stopped; in
particular, when no segment of the chain has `normalMapReady`, the walk
stops at the root and the texture handle and the bias triple
`(tileX − root.tileX·dZ2, tileY − root.tileY·dZ2, 1/dZ2)` with
`dZ2 = 2 << (tileZoom − root.tileZoom − 1)` are still overwritten from the
root segment, whose normal map is not ready. -/
theorem C10_whileNormalMapCreating_unguarded (seg : NMSeg) (ancestors : List NMSeg)
    (h0 : seg.normalMapReady = false)
    (h1 : ∀ x ∈ ancestors, x.normalMapReady = false) :
    (ancestors.getLastD seg).normalMapReady = false ∧
    whileNormalMapCreating seg ancestors =
      { texture := (ancestors.getLastD seg).texture
        biasX := (seg.tileX : ℤ) -
          ((ancestors.getLastD seg).tileX : ℤ) *
            (dZ2shift seg.tileZoom (ancestors.getLastD seg).tileZoom : ℤ)
        biasY := (seg.tileY : ℤ) -
          ((ancestors.getLastD seg).tileY : ℤ) *
            (dZ2shift seg.tileZoom (ancestors.getLastD seg).tileZoom : ℤ)
        biasZ := ((dZ2shift seg.tileZoom (ancestors.getLastD seg).tileZoom : ℚ))⁻¹ } := by
  constructor
  · rcases getLastD_self_or_mem ancestors seg with h | h
    · rw [h]; exact h0
    · exact h1 _ h
  · unfold whileNormalMapCreating
    rw [findNormalMapAncestor_of_none ancestors seg h0 h1]

/-- C10 witness: in a three-level chain with no normal map ready anywhere,
the zoom-2 segment's handle and bias are overwritten from the root:
texture 30, bias `(3 − 0·4, 1 − 0·4, 1/4)`, although the root's map is not
ready. -/
theorem C10_whileNormalMapCreating_unguarded_witness :
    c10Root.normalMapReady = false ∧
    whileNormalMapCreating c10Seg [c10Mid, c10Root] =
      { texture := 30, biasX := 3, biasY := 1, biasZ := mkRat 1 4 } := by
  have h := C10_whileNormalMapCreating_unguarded c10Seg [c10Mid, c10Root] rfl (by decide)
  exact ⟨h.1, h.2.trans (by decide)⟩


theorem destroyStep_dead (w : World) (aId : ℕ) (sd : Side) (hw : w aId = none) :
    destroyStep w aId sd = w := by
  unfold destroyStep
  rw [hw]

theorem destroyStep_noNeighbor (w : World) (aId : ℕ) (sd : Side) (nbA : Side → Option ℕ)
    (hw : w aId = some nbA) (hni : nbA sd = none) :
    destroyStep w aId sd = w := by
  unfold destroyStep
  rw [hw]
  dsimp only
  rw [hni]

theorem destroyStep_deadNeighbor (w : World) (aId : ℕ) (sd : Side)
    (nbA : Side → Option ℕ) (ni : ℕ)
    (hw : w aId = some nbA) (hni : nbA sd = some ni) (hd : w ni = none) :
    destroyStep w aId sd = w := by
  unfold destroyStep
  rw [hw]
  dsimp only
  rw [hni]
  dsimp only
  rw [hd]

theorem destroyStep_update (w : World) (aId : ℕ) (sd : Side)
    (nbA : Side → Option ℕ) (ni : ℕ) (nbi : Side → Option ℕ)
    (hw : w aId = some nbA) (hni : nbA sd = some ni) (halive : w ni = some nbi) :
    destroyStep w aId sd = updW w ni (some (updS nbi (OPSIDE sd) none)) := by
  unfold destroyStep
  rw [hw]
  dsimp only
  rw [hni]
  dsimp only
  rw [halive]

theorem destroyStep_ref_pullback (w : World) (aId : ℕ) (sd : Side) (i : ℕ)
    (g : Side → Option ℕ) (t : Side)
    (h1 : destroyStep w aId sd i = some g) (h2 : g t = some aId) :
    ∃ g0, w i = some g0 ∧ g0 t = some aId := by
  cases hw : w aId with
  | none =>
    rw [destroyStep_dead w aId sd hw] at h1
    exact ⟨g, h1, h2⟩
  | some nbA =>
    cases hni : nbA sd with
    | none =>
      rw [destroyStep_noNeighbor w aId sd nbA hw hni] at h1
      exact ⟨g, h1, h2⟩
    | some ni =>
      cases halive : w ni with
      | none =>
        rw [destroyStep_deadNeighbor w aId sd nbA ni hw hni halive] at h1
        exact ⟨g, h1, h2⟩
      | some nbi =>
        rw [destroyStep_update w aId sd nbA ni nbi hw hni halive] at h1
        by_cases hi : i = ni
        · subst hi
          have hupd : (updW w i (some (updS nbi (OPSIDE sd) none))) i =
              some (updS nbi (OPSIDE sd) none) := by
            simp [updW]
          rw [hupd] at h1
          injection h1 with h1'
          subst h1'
          by_cases ht : t = OPSIDE sd
          · rw [ht] at h2
            simp [updS] at h2
          · have hpass : updS nbi (OPSIDE sd) none t = nbi t := by simp [updS, ht]
            rw [hpass] at h2
            exact ⟨nbi, halive, h2⟩
        · have hupd : (updW w ni (some (updS nbi (OPSIDE sd) none))) i = w i := by
            simp [updW, hi]
          rw [hupd] at h1
          exact ⟨g, h1, h2⟩

theorem destroyStep_self (w : World) (aId : ℕ) (sd : Side) (nbA : Side → Option ℕ)
    (hw : w aId = some nbA) (hns : nbA sd ≠ some aId) :
    destroyStep w aId sd aId = some nbA := by
  cases hni : nbA sd with
  | none =>
    rw [destroyStep_noNeighbor w aId sd nbA hw hni]
    exact hw
  | some ni =>
    cases halive : w ni with
    | none =>
      rw [destroyStep_deadNeighbor w aId sd nbA ni hw hni halive]
      exact hw
    | some nbi =>
      rw [destroyStep_update w aId sd nbA ni nbi hw hni halive]
      have hne : aId ≠ ni := by
        intro h
        subst h
        exact hns hni
      simp only [updW, if_neg hne]
      exact hw

theorem destroyStep_clears (w : World) (aId : ℕ) (sd : Side)
    (nbA : Side → Option ℕ) (ni : ℕ) (nbi : Side → Option ℕ)
    (hw : w aId = some nbA) (hni : nbA sd = some ni) (halive : w ni = some nbi) :
    destroyStep w aId sd ni = some (updS nbi (OPSIDE sd) none) := by
  rw [destroyStep_update w aId sd nbA ni nbi hw hni halive]
  simp [updW]

/-- C9: after `destroy` completes on a node `aId` whose links obey the
pairing discipline `addToRender` establishes (every back-reference to `aId`
from a node held in `aId`'s neighbour array sits on the side opposite to
`aId`'s own pointer to that node), no former neighbour of `aId` holds a
reference to `aId` on any of its four sides. -/
theorem C9_destroy_unlinks (w : World) (aId : ℕ) (nbA : Side → Option ℕ)
    (hw : w aId = some nbA)
    (hsym : ∀ sd ni nbi t, nbA sd = some ni → w ni = some nbi → nbi t = some aId →
      t = OPSIDE sd) :
    ∀ sd ni g t, nbA sd = some ni → destroy w aId ni = some g → g t ≠ some aId := by
  have hnoself : ∀ sd, nbA sd ≠ some aId := by
    intro sd h
    have hod := hsym sd aId nbA sd h hw h
    cases sd <;> exact absurd hod (by decide)
  intro sd ni g t hni hdest hgt
  have hnia : ni ≠ aId := by
    intro h
    rw [h] at hni
    exact hnoself sd hni
  unfold destroy at hdest
  have hpeel : updW
      (destroyStep (destroyStep (destroyStep (destroyStep w aId .n) aId .e) aId .s) aId .w)
      aId none ni =
      destroyStep (destroyStep (destroyStep (destroyStep w aId .n) aId .e) aId .s) aId .w ni := by
    simp [updW, hnia]
  rw [hpeel] at hdest
  obtain ⟨g3, h3w, h3t⟩ := destroyStep_ref_pullback _ aId .w ni g t hdest hgt
  obtain ⟨g2, h2w, h2t⟩ := destroyStep_ref_pullback _ aId .s ni g3 t h3w h3t
  obtain ⟨g1, h1w, h1t⟩ := destroyStep_ref_pullback _ aId .e ni g2 t h2w h2t
  obtain ⟨g0, h0w, h0t⟩ := destroyStep_ref_pullback _ aId .n ni g1 t h1w h1t
  have ht : t = OPSIDE sd := hsym sd ni g0 t hni h0w h0t
  subst ht
  have hA1 : destroyStep w aId .n aId = some nbA :=
    destroyStep_self w aId .n nbA hw (hnoself .n)
  have hA2 : destroyStep (destroyStep w aId .n) aId .e aId = some nbA :=
    destroyStep_self _ aId .e nbA hA1 (hnoself .e)
  have hA3 : destroyStep (destroyStep (destroyStep w aId .n) aId .e) aId .s aId = some nbA :=
    destroyStep_self _ aId .s nbA hA2 (hnoself .s)
  cases sd with
  | n =>
    have hclr := destroyStep_clears w aId .n nbA ni g0 hw hni h0w
    rw [hclr] at h1w
    injection h1w with he
    rw [← he] at h1t
    simp [updS] at h1t
  | e =>
    have hclr := destroyStep_clears _ aId .e nbA ni g1 hA1 hni h1w
    rw [hclr] at h2w
    injection h2w with he
    rw [← he] at h2t
    simp [updS] at h2t
  | s =>
    have hclr := destroyStep_clears _ aId .s nbA ni g2 hA2 hni h2w
    rw [hclr] at h3w
    injection h3w with he
    rw [← he] at h3t
    simp [updS] at h3t
  | w =>
    have hclr := destroyStep_clears _ aId .w nbA ni g3 hA3 hni h3w
    rw [hclr] at hdest
    injection hdest with he
    rw [← he] at hgt
    simp [updS] at hgt

/-- C9 witness: destroying node 0, whose north neighbour is node 1 with the
symmetric south back-reference, leaves node 1 without any reference to
node 0 on its south side. -/
theorem C9_destroy_unlinks_witness :
    c9NbA Side.n = some 1 ∧
    (destroy c9World 0 1).map (fun g => g Side.s) ≠ some (some 0) := by
  constructor
  · decide
  · intro hmap
    cases hd : destroy c9World 0 1 with
    | none =>
      rw [hd] at hmap
      simp at hmap
    | some g =>
      rw [hd] at hmap
      have hg : g Side.s = some 0 := by simpa using hmap
      have hsym : ∀ sd ni nbi t, c9NbA sd = some ni → c9World ni = some nbi →
          nbi t = some 0 → t = OPSIDE sd := by
        intro sd ni nbi t h1 h2 h3
        cases sd with
        | n =>
          have e1 : c9NbA Side.n = some 1 := by decide
          rw [e1] at h1
          injection h1 with h1'
          rw [← h1'] at h2
          have e2 : c9World 1 = some c9Rec1 := rfl
          rw [e2] at h2
          injection h2 with h2'
          rw [← h2'] at h3
          cases t with
          | n => exact absurd h3 (by decide)
          | e => exact absurd h3 (by decide)
          | s => rfl
          | w => exact absurd h3 (by decide)
        | e =>
          have e1 : c9NbA Side.e = none := by decide
          rw [e1] at h1
          exact Option.noConfusion h1
        | s =>
          have e1 : c9NbA Side.s = none := by decide
          rw [e1] at h1
          exact Option.noConfusion h1
        | w =>
          have e1 : c9NbA Side.w = none := by decide
          rw [e1] at h1
          exact Option.noConfusion h1
      exact C9_destroy_unlinks c9World 0 c9NbA rfl hsym Side.n 1 g Side.s (by decide) hd hg

theorem oppart_of_neighbour : ∀ (sd : Side) (p q : QPart),
    NEIGHBOUR sd p = some q → OPPART (OPSIDE sd) p = q := by
  intro sd p q h
  cases sd <;> cases p <;> cases q <;>
    first
      | rfl
      | exact absurd h (by decide)

theorem nodeAt_none : ∀ l : List QPart, nodeAt none l = none := by
  intro l
  cases l <;> rfl

theorem nodeAt_append : ∀ (l1 l2 : List QPart) (t : Option QTree),
    nodeAt t (l1 ++ l2) = nodeAt (nodeAt t l1) l2 := by
  intro l1
  induction l1 with
  | nil => intro l2 t; cases t <;> rfl
  | cons p l1' ih =>
    intro l2 t
    cases t with
    | none =>
      show (none : Option QTree) = nodeAt (nodeAt none (p :: l1')) l2
      exact (nodeAt_none l2).symm
    | some t =>
      show nodeAt (t.child p) (l1' ++ l2) = nodeAt (nodeAt (t.child p) l1') l2
      exact ih l2 (t.child p)

theorem descendMirror_eq_nodeAt : ∀ (l : List QPart) (t : Option QTree) (sd : Side),
    descendMirror t sd l = nodeAt t (l.map (OPPART sd)) := by
  intro l
  induction l with
  | nil => intro t sd; cases t <;> rfl
  | cons q qs ih =>
    intro t sd
    cases t with
    | none => rfl
    | some t =>
      show descendMirror (t.child (OPPART sd q)) sd qs =
        nodeAt (t.child (OPPART sd q)) (qs.map (OPPART sd))
      exact ih _ sd

theorem walkUp_eq : ∀ (up acc : List QPart) (root : QTree) (sd : Side),
    walkUp root sd up acc =
      (neighborRev sd up).bind fun r =>
        nodeAt (some root) (r.reverse ++ acc.map (OPPART (OPSIDE sd))) := by
  intro up
  induction up with
  | nil => intro acc root sd; rfl
  | cons p up' ih =>
    intro acc root sd
    cases hn : NEIGHBOUR sd p with
    | some sib =>
      simp only [walkUp, neighborRev, hn, Option.some_bind]
      rw [descendMirror_eq_nodeAt, ← nodeAt_append]
      simp only [List.map_cons, List.reverse_cons, List.append_assoc, List.singleton_append]
      rw [oppart_of_neighbour sd p sib hn]
    | none =>
      simp only [walkUp, neighborRev, hn]
      rw [ih (p :: acc) root sd]
      cases hr : neighborRev sd up' with
      | none => rfl
      | some r =>
        show nodeAt (some root) (r.reverse ++ (p :: acc).map (OPPART (OPSIDE sd))) =
          nodeAt (some root) ((OPPART (OPSIDE sd) p :: r).reverse ++
            acc.map (OPPART (OPSIDE sd)))
        simp only [List.map_cons, List.reverse_cons, List.append_assoc, List.singleton_append]

/-- C8 counterexample: for NW's NE child asking for side E in a tree whose
root-level NE child exists but has no children, the mirrored descent hits an
empty child slot and `getEqualNeighbor` returns `null` — not the deepest
available ancestor at the boundary (the root's NE child, which exists). -/
theorem C8_getEqualNeighbor_cex :
    getEqualNeighbor c8Shallow [QPart.nw, QPart.ne] Side.e = none ∧
    (nodeAt (some c8Shallow) [QPart.ne]).isSome = true ∧
    (nodeAt (some c8Shallow) [QPart.ne, QPart.nw]).isSome = false := by
  exact ⟨rfl, rfl, rfl⟩

/-- C8 (amended): `getEqualNeighbor` returns exactly the tree lookup of the
mirrored same-depth neighbour path — the same-depth neighbour when every
node along that path exists, and `null` otherwise (both when the mirrored
descent meets a missing child, in which case no ancestor is substituted,
and when no ancestor offers a sibling across the side). -/
theorem C8_getEqualNeighbor_mirror (root : QTree) (path : List QPart) (sd : Side)
    (hne : path ≠ []) :
    getEqualNeighbor root path sd =
      (neighborRev sd path.reverse).bind fun r => nodeAt (some root) r.reverse := by
  unfold getEqualNeighbor
  cases hrev : path.reverse with
  | nil => exact absurd (List.reverse_eq_nil_iff.1 hrev) hne
  | cons pk up =>
    cases hn : NEIGHBOUR sd pk with
    | some sib =>
      simp only [neighborRev, hn, Option.some_bind, List.reverse_cons]
    | none =>
      simp only [hn]
      rw [walkUp_eq]
      simp only [neighborRev, hn]
      cases hr : neighborRev sd up with
      | none => rfl
      | some r =>
        simp only [Option.map_some', Option.some_bind, List.map_nil, List.append_nil]

/-- C8 witness: scenario S6 — for NW's NE child asking for side E in a tree
where the root's NE child has its children, `getEqualNeighbor` produces the
node at the mirrored path `[NE, NW]` (the parent's E-neighbour's NW child),
which exists. -/
theorem C8_getEqualNeighbor_mirror_witness :
    getEqualNeighbor c8Deep [QPart.nw, QPart.ne] Side.e =
      nodeAt (some c8Deep) [QPart.ne, QPart.nw] ∧
    (nodeAt (some c8Deep) [QPart.ne, QPart.nw]).isSome = true := by
  have h := C8_getEqualNeighbor_mirror c8Deep [QPart.nw, QPart.ne] Side.e (by simp)
  exact ⟨h.trans rfl, rfl⟩
